import Mathlib

/-!
Shallow embedding of the blackjack training program (card/hand model,
deck, game engine, basic-strategy resolver and Hi-Lo counter) together
with proofs about the embedded definitions.

Money amounts (bets, payouts) are modelled as rationals; all the float
arithmetic performed by the program on them (multiplication by 0.5, 1.5,
2, addition) is exact on the values that occur, so ℚ is a faithful model.
-/

namespace Blackjack

/-- Suit enum from the source: four fixed symbols. -/
inductive Suit where
  | hearts | diamonds | clubs | spades
  deriving DecidableEq

/-- Rank of a playing card: 2..10, J, Q, K, A. -/
inductive Rank where
  | r2 | r3 | r4 | r5 | r6 | r7 | r8 | r9 | r10
  | jack | queen | king | ace
  deriving DecidableEq

/-- Card.value from the source: 10 for J/Q/K, 11 for an Ace
(adjusted later in the hand calculation), face value otherwise. -/
def Rank.value : Rank → Nat
  | .r2 => 2
  | .r3 => 3
  | .r4 => 4
  | .r5 => 5
  | .r6 => 6
  | .r7 => 7
  | .r8 => 8
  | .r9 => 9
  | .r10 => 10
  | .jack => 10
  | .queen => 10
  | .king => 10
  | .ace => 11

/-- Card.hi_lo_value from the source: +1 for 2-6, -1 for 10/J/Q/K/A, 0 for 7/8/9. -/
def Rank.hi_lo_value : Rank → Int
  | .r2 | .r3 | .r4 | .r5 | .r6 => 1
  | .r10 | .jack | .queen | .king | .ace => -1
  | .r7 | .r8 | .r9 => 0

/-- A playing card: rank and suit. -/
structure Card where
  rank : Rank
  suit : Suit
  deriving DecidableEq

def Card.value (c : Card) : Nat := c.rank.value

def Card.hi_lo_value (c : Card) : Int := c.rank.hi_lo_value

/-- Total of a list of cards with every Ace counted as 11
(the `total` accumulated by the first loop of Hand.value). -/
def rawTotal (cards : List Card) : Nat :=
  (cards.map Card.value).sum

/-- Number of Aces in a list of cards (the `aces` counter of Hand.value). -/
def aceCount (cards : List Card) : Nat :=
  (cards.filter (fun c => c.rank = Rank.ace)).length

/-- The adjustment loop of Hand.value: while total > 21 and at least one
Ace remains un-reduced, subtract 10 and decrement the Ace counter. -/
def adjustAces : Nat → Nat → Nat
  | total, 0 => total
  | total, aces + 1 => if total > 21 then adjustAces (total - 10) aces else total

/-- Hand.value of the source, on the card list: sum with Aces as 11,
then reduce Aces while the total exceeds 21. -/
def handValue (cards : List Card) : Nat :=
  adjustAces (rawTotal cards) (aceCount cards)

/-- Hand.is_soft of the source, on the card list: recompute the sum with
every Ace as 11 and report aces > 0 together with that raw sum ≤ 21.
Note the raw sum is NOT Ace-adjusted here. -/
def isSoftCards (cards : List Card) : Bool :=
  decide (0 < aceCount cards) && decide (rawTotal cards ≤ 21)

/-- Minimum achievable total: every Ace counted as 1.  Not a function of
the source; used to state what Hand.value computes. -/
def minTotal (cards : List Card) : Nat :=
  (cards.map (fun c => if c.rank = Rank.ace then 1 else c.value)).sum

/-- A blackjack hand: ordered cards plus per-hand state, as in the source. -/
structure Hand where
  cards : List Card
  bet : ℚ := 0
  is_split : Bool := false
  is_doubled : Bool := false
  is_surrendered : Bool := false
  is_insured : Bool := false
  deriving DecidableEq

/-- Hand.add_card: append a card. -/
def Hand.add_card (h : Hand) (c : Card) : Hand :=
  { h with cards := h.cards ++ [c] }

/-- Hand.value: best value for the hand. -/
def Hand.value (h : Hand) : Nat := handValue h.cards

/-- Hand.is_soft. -/
def Hand.is_soft (h : Hand) : Bool := isSoftCards h.cards

/-- Hand.is_blackjack: exactly two cards valuing 21 (the split flag is not consulted). -/
def Hand.is_blackjack (h : Hand) : Bool :=
  decide (h.cards.length = 2) && decide (h.value = 21)

/-- Hand.is_bust: value over 21. -/
def Hand.is_bust (h : Hand) : Bool := decide (21 < h.value)

/-- Hand.is_pair: exactly two cards of equal rank. -/
def Hand.is_pair (h : Hand) : Bool :=
  match h.cards with
  | [c1, c2] => decide (c1.rank = c2.rank)
  | _ => false

/-- Hand.can_split: a pair that is not itself split-derived. -/
def Hand.can_split (h : Hand) : Bool := h.is_pair && !h.is_split

/-- Hand.can_double: exactly two cards, not already doubled. -/
def Hand.can_double (h : Hand) : Bool :=
  decide (h.cards.length = 2) && !h.is_doubled

/-- Casino rule configuration (GameRules dataclass). -/
structure GameRules where
  num_decks : Nat := 6
  dealer_hits_soft_17 : Bool := false
  blackjack_payout : ℚ := 3 / 2
  can_surrender : Bool := true
  can_double_after_split : Bool := true
  can_resplit_aces : Bool := false
  max_splits : Nat := 3
  min_bet : ℚ := 10
  max_bet : ℚ := 500
  penetration : ℚ := 3 / 4
  deriving DecidableEq

/-- A shoe of multiple decks (Deck class). -/
structure Deck where
  num_decks : Nat
  cards : List Card
  discards : List Card
  cut_card_position : Nat
  deriving DecidableEq

/-- The unshuffled fresh shoe built by Deck.reset: for each deck,
for each rank, for each suit, one card, in that nesting order. -/
def freshCards (num_decks : Nat) : List Card :=
  (List.range num_decks).flatMap fun _ =>
    [Rank.r2, Rank.r3, Rank.r4, Rank.r5, Rank.r6, Rank.r7, Rank.r8, Rank.r9,
     Rank.r10, Rank.jack, Rank.queen, Rank.king, Rank.ace].flatMap fun r =>
      [Suit.hearts, Suit.diamonds, Suit.clubs, Suit.spades].map fun s =>
        { rank := r, suit := s }

/-- Deck.reset: rebuild the shoe, shuffle it, place the cut card at
int(len(cards) * 0.25) — the float product is exact and its truncation is
natural division by 4 — and clear the discards.  The random shuffle is
modelled as an explicit permutation-producing parameter. -/
def Deck.reset (shuffle : List Card → List Card) (d : Deck) : Deck :=
  let shuffled := shuffle (freshCards d.num_decks)
  { d with
    cards := shuffled
    cut_card_position := shuffled.length / 4
    discards := [] }

/-- Deck.deal_card: pop the last card of the live sequence and append it
to the discards; an empty shoe raises, modelled as none. -/
def Deck.deal_card (d : Deck) : Option (Card × Deck) :=
  match d.cards.getLast? with
  | none => none
  | some c => some (c, { d with cards := d.cards.dropLast,
                                discards := d.discards ++ [c] })

/-- Deck.cards_remaining. -/
def Deck.cards_remaining (d : Deck) : Nat := d.cards.length

/-- Deck.needs_shuffle: the cut card has been reached. -/
def Deck.needs_shuffle (d : Deck) : Bool :=
  decide (d.cards.length ≤ d.cut_card_position)

/-- The cut-card index as the specification words it:
floor(52 * N * (1 - penetration)). -/
def cutIndexSpec (penetration : ℚ) (num_decks : Nat) : Int :=
  Int.floor ((52 * num_decks : ℚ) * (1 - penetration))

/-- Round state of the game controller (BlackjackGame class). -/
structure BlackjackGame where
  rules : GameRules
  deck : Deck
  player_hands : List Hand
  dealer_hand : Hand
  current_hand_index : Nat
  deriving DecidableEq

/-- BlackjackGame.get_current_hand; an out-of-range cursor is a Python
IndexError, modelled as none. -/
def BlackjackGame.get_current_hand (g : BlackjackGame) : Option Hand :=
  g.player_hands[g.current_hand_index]?

/-- BlackjackGame.hit: deal one card to the current hand.  The cursor is
not moved by the engine. -/
def BlackjackGame.hit (g : BlackjackGame) : Option (Card × BlackjackGame) :=
  match g.get_current_hand with
  | none => none
  | some hand =>
    match g.deck.deal_card with
    | none => none
    | some (c, deck') =>
      some (c, { g with
        deck := deck'
        player_hands :=
          g.player_hands.set g.current_hand_index (hand.add_card c) })

/-- BlackjackGame.stand: advance the cursor by one. -/
def BlackjackGame.stand (g : BlackjackGame) : BlackjackGame :=
  { g with current_hand_index := g.current_hand_index + 1 }

/-- BlackjackGame.double_down: requires can_double, doubles the bet, deals
one card, advances the cursor. -/
def BlackjackGame.double_down (g : BlackjackGame) :
    Option (Card × BlackjackGame) :=
  match g.get_current_hand with
  | none => none
  | some hand =>
    if hand.can_double then
      match g.deck.deal_card with
      | none => none
      | some (c, deck') =>
        let hand' : Hand := { hand with bet := hand.bet * 2, is_doubled := true }
        some (c, { g with
          deck := deck'
          player_hands :=
            g.player_hands.set g.current_hand_index (hand'.add_card c)
          current_hand_index := g.current_hand_index + 1 })
    else none

/-- BlackjackGame.split: requires can_split and the hand-count cap, moves
the second card into a new hand with the same bet, marks both hands as
split, deals one card to each, and inserts the new hand right after the
current index.  The cursor is unchanged. -/
def BlackjackGame.split (g : BlackjackGame) : Option BlackjackGame :=
  match g.get_current_hand with
  | none => none
  | some hand =>
    if hand.can_split ∧ g.player_hands.length < g.rules.max_splits + 1 then
      match hand.cards with
      | [c1, c2] =>
        let hand1 : Hand := { hand with cards := [c1], is_split := true }
        let new_hand : Hand :=
          { cards := [c2], bet := hand.bet, is_split := true }
        match g.deck.deal_card with
        | none => none
        | some (d1, deck1) =>
          match deck1.deal_card with
          | none => none
          | some (d2, deck2) =>
            some { g with
              deck := deck2
              player_hands :=
                (g.player_hands.set g.current_hand_index
                  (hand1.add_card d1)).insertIdx
                  (g.current_hand_index + 1) (new_hand.add_card d2) }
      | _ => none
    else none

/-- BlackjackGame.surrender: requires exactly two cards, marks the hand
surrendered and advances the cursor. -/
def BlackjackGame.surrender (g : BlackjackGame) : Option BlackjackGame :=
  match g.get_current_hand with
  | none => none
  | some hand =>
    if hand.cards.length = 2 then
      some { g with
        player_hands := g.player_hands.set g.current_hand_index
          { hand with is_surrendered := true }
        current_hand_index := g.current_hand_index + 1 }
    else none

/-- The player-turn hit step of the training loop (training_modes.py):
hit the current hand, and when the hit busts it, immediately stand,
advancing the cursor past the busted hand. -/
def BlackjackGame.hitStep (g : BlackjackGame) : Option BlackjackGame :=
  match g.hit with
  | none => none
  | some (_, g1) =>
    match g1.get_current_hand with
    | none => none
    | some hand => if hand.is_bust then some g1.stand else some g1

/-- BlackjackGame.play_dealer_hand: the dealer draw loop, on the dealer's
card list, with the card source abstracted as an infinite stream (index i
is the next card dealt) and an explicit fuel bound; the loop itself never
stops consuming fuel except through its own exit conditions, so fuel
sufficiency is exactly the termination statement. -/
def playDealerLoop (h17 : Bool) (stream : Nat → Card) :
    Nat → Nat → List Card → Option (List Card)
  | 0, _, _ => none
  | fuel + 1, i, dealer =>
    let v := handValue dealer
    if 21 < v then some dealer
    else if 17 < v then some dealer
    else if v = 17 then
      if h17 && isSoftCards dealer then
        playDealerLoop h17 stream fuel (i + 1) (dealer ++ [stream i])
      else some dealer
    else playDealerLoop h17 stream fuel (i + 1) (dealer ++ [stream i])

/-- BlackjackGame.resolve_hand: signed profit/loss of one player hand
against the dealer hand. -/
def resolve_hand (rules : GameRules) (dealer_hand : Hand) (hand : Hand) : ℚ :=
  if hand.is_surrendered then -hand.bet * (1 / 2)
  else
    let player_value := hand.value
    let dealer_value := dealer_hand.value
    if 21 < player_value then -hand.bet
    else if hand.is_blackjack then
      if dealer_hand.is_blackjack then 0
      else hand.bet * rules.blackjack_payout
    else if 21 < dealer_value then hand.bet
    else if dealer_hand.is_blackjack then
      if hand.is_insured then -hand.bet + hand.bet * (1 / 2)
      else -hand.bet
    else if dealer_value < player_value then hand.bet
    else if player_value < dealer_value then -hand.bet
    else 0

/-- Player actions of the strategy resolver (Action enum). -/
inductive Action where
  | hit | stand | double | split | surrender
  | double_or_hit | double_or_stand | split_if_das
  deriving DecidableEq

/-- Strategy-resolver configuration fixed at construction. -/
structure BasicStrategy where
  dealer_hits_soft_17 : Bool := false
  can_surrender : Bool := true
  double_after_split : Bool := true
  deriving DecidableEq

/-- Hard-total table rows for totals 5..21 and upcards 2..11
(the entries of hard_strategy). -/
def hardCore (h17 : Bool) (total up : Nat) : Action :=
  if total ≤ 8 then Action.hit
  else if total = 9 then
    if 3 ≤ up ∧ up ≤ 6 then Action.double_or_hit else Action.hit
  else if total = 10 then
    if up ≤ 9 then Action.double_or_hit else Action.hit
  else if total = 11 then
    if up ≤ 10 then Action.double_or_hit
    else if h17 then Action.double_or_hit else Action.hit
  else if total = 12 then
    if 4 ≤ up ∧ up ≤ 6 then Action.stand else Action.hit
  else if total ≤ 16 then
    if up ≤ 6 then Action.stand else Action.hit
  else Action.stand

/-- hard_strategy.get(total, empty).get(up, Stand): outer keys are 5..21,
inner keys 2..11, both falling back to Stand. -/
def hardAction (h17 : Bool) (total up : Nat) : Action :=
  if 5 ≤ total ∧ total ≤ 21 then
    if 2 ≤ up ∧ up ≤ 11 then hardCore h17 total up else Action.stand
  else Action.stand

/-- Soft-total table rows for totals 13..21 and upcards 2..11
(the entries of soft_strategy). -/
def softCore (h17 : Bool) (total up : Nat) : Action :=
  if total ≤ 14 then
    if 5 ≤ up ∧ up ≤ 6 then Action.double_or_hit else Action.hit
  else if total ≤ 16 then
    if 4 ≤ up ∧ up ≤ 6 then Action.double_or_hit else Action.hit
  else if total = 17 then
    if 3 ≤ up ∧ up ≤ 6 then Action.double_or_hit else Action.hit
  else if total = 18 then
    if up = 2 then
      if h17 then Action.double_or_stand else Action.stand
    else if 3 ≤ up ∧ up ≤ 6 then Action.double_or_stand
    else if up ≤ 8 then Action.stand
    else Action.hit
  else Action.stand

/-- soft_strategy.get(total, empty).get(up, Stand): outer keys are 13..21,
inner keys 2..11, both falling back to Stand. -/
def softAction (h17 : Bool) (total up : Nat) : Action :=
  if 13 ≤ total ∧ total ≤ 21 then
    if 2 ≤ up ∧ up ≤ 11 then softCore h17 total up else Action.stand
  else Action.stand

/-- Pair-splitting table rows, keyed by the repeated rank, for upcards
2..11 (the entries of pair_strategy). -/
def pairCore (das : Bool) (r : Rank) (up : Nat) : Action :=
  match r with
  | .r2 | .r3 =>
    if up ≤ 3 then (if das then Action.split else Action.hit)
    else if up ≤ 7 then Action.split else Action.hit
  | .r4 =>
    if 5 ≤ up ∧ up ≤ 6 then (if das then Action.split else Action.hit)
    else Action.hit
  | .r5 => if up ≤ 9 then Action.double_or_hit else Action.hit
  | .r6 =>
    if up = 2 then (if das then Action.split else Action.hit)
    else if up ≤ 6 then Action.split else Action.hit
  | .r7 => if up ≤ 7 then Action.split else Action.hit
  | .r8 => Action.split
  | .r9 => if up = 7 ∨ up = 10 ∨ up = 11 then Action.stand else Action.split
  | .r10 | .jack | .queen | .king => Action.stand
  | .ace => Action.split

/-- pair_strategy.get(rank, empty).get(up, Hit): every rank is a key;
inner keys are 2..11 with fallback Hit. -/
def pairAction (das : Bool) (r : Rank) (up : Nat) : Action :=
  if 2 ≤ up ∧ up ≤ 11 then pairCore das r up else Action.hit

/-- The surrender table (surrender_strategy): totals 15/16/17 map to the
upcard lists built from the two rule flags, everything else is absent. -/
def surrenderMatch (canSurrRule h17 : Bool) (total up : Nat) : Bool :=
  if total = 15 then canSurrRule && decide (up = 10)
  else if total = 16 then
    canSurrRule && (decide (up = 9) || decide (up = 10) || decide (up = 11))
  else if total = 17 then
    (canSurrRule && h17) && decide (up = 11)
  else false

/-- Rank of the first card of the hand (hand.cards[0].rank); only
consulted under the is_pair guard, which guarantees two cards, so the
fallback value for an empty hand is never reached there. -/
def headRank (cards : List Card) : Rank :=
  match cards with
  | c :: _ => c.rank
  | [] => Rank.r2

/-- BasicStrategy.get_action: surrender check (two hard cards) first,
then the pair table (only a looked-up Split is acted on), then the
soft/hard tables with the conditional double entries resolved from
can_double. -/
def get_action (bs : BasicStrategy) (hand : Hand) (dealer_upcard : Card)
    (can_double can_split can_surrender : Bool) : Action :=
  let dealer_value := dealer_upcard.value
  let player_value := hand.value
  if can_surrender && decide (hand.cards.length = 2) && !hand.is_soft
      && surrenderMatch bs.can_surrender bs.dealer_hits_soft_17
           player_value dealer_value then
    Action.surrender
  else if can_split && hand.is_pair
      && decide (pairAction bs.double_after_split (headRank hand.cards)
                   dealer_value = Action.split) then
    Action.split
  else
    let action :=
      if hand.is_soft && decide (player_value ≤ 21) then
        softAction bs.dealer_hits_soft_17 player_value dealer_value
      else hardAction bs.dealer_hits_soft_17 player_value dealer_value
    if action = Action.double_or_hit then
      if can_double then Action.double else Action.hit
    else if action = Action.double_or_stand then
      if can_double then Action.double else Action.stand
    else action

/-- Hi-Lo counter state (HiLoCounter class). -/
structure HiLoCounter where
  running_count : Int := 0
  cards_seen : Nat := 0
  starting_decks : Nat := 6
  deriving DecidableEq

/-- HiLoCounter.count_card: add the card's Hi-Lo value to the running
count and bump cards_seen. -/
def HiLoCounter.count_card (ctr : HiLoCounter) (c : Card) : HiLoCounter :=
  { ctr with running_count := ctr.running_count + c.hi_lo_value,
             cards_seen := ctr.cards_seen + 1 }

/-- HiLoCounter.get_true_count: 0 when decks remaining ≤ 0, otherwise the
running count divided by the decks remaining. -/
def HiLoCounter.get_true_count (ctr : HiLoCounter) (decks_remaining : ℚ) : ℚ :=
  if decks_remaining ≤ 0 then 0
  else (ctr.running_count : ℚ) / decks_remaining

/-- Example card with the given rank, of hearts. -/
def cardH (r : Rank) : Card := { rank := r, suit := Suit.hearts }

/-- Example card with the given rank, of spades. -/
def cardS (r : Rank) : Card := { rank := r, suit := Suit.spades }

/-- Example hand Ace, Ace, Nine. -/
def handAA9 : Hand :=
  { cards := [cardH Rank.ace, cardS Rank.ace, cardH Rank.r9] }

/-- Example pair of eights. -/
def hand88 : Hand := { cards := [cardH Rank.r8, cardS Rank.r8] }

/-- Strategy resolver built with the default flags (S17, surrender
allowed, double after split allowed). -/
def bsDefault : BasicStrategy := {}

/-- The default rule configuration. -/
def rulesDefault : GameRules := {}

/-- Strategy resolver with double after split disallowed. -/
def bsNoDas : BasicStrategy := { double_after_split := false }

/-- Dealer cards Ace and Six: a soft seventeen. -/
def dealerA6 : List Card := [cardH Rank.ace, cardH Rank.r6]

/-- A card source that always produces a Six. -/
def streamSix : Nat → Card := fun _ => cardH Rank.r6

/-- Player hand Ten and Nine with a bet of 100. -/
def player19 : Hand := { cards := [cardH Rank.r10, cardS Rank.r9], bet := 100 }

/-- Player natural: Ace and King with a bet of 100. -/
def playerBJ : Hand := { cards := [cardH Rank.ace, cardH Rank.king], bet := 100 }

/-- A surrendered Ten-Six hand with a bet of 100. -/
def playerSurr : Hand :=
  { cards := [cardH Rank.r10, cardS Rank.r6], bet := 100,
    is_surrendered := true }

/-- Dealer hand Ten and Eight. -/
def dealer18 : Hand := { cards := [cardH Rank.r10, cardH Rank.r8] }

/-- Dealer natural: Ace and Queen. -/
def dealerBJ : Hand := { cards := [cardS Rank.ace, cardS Rank.queen] }

/-- A split-derived Ace-King two-card twenty-one with a bet of 100, as
produced by splitting Aces and drawing a King. -/
def splitAceKing : Hand :=
  { cards := [cardH Rank.ace, cardS Rank.king], bet := 100, is_split := true }

/-- A shoe record configured for one deck, used to exercise reset. -/
def deckOne : Deck :=
  { num_decks := 1, cards := [], discards := [], cut_card_position := 0 }

/-- A small live shoe used to exercise the game operations; dealing pops
from the back, so the Five is the next card out. -/
def deckSix : Deck :=
  { num_decks := 6,
    cards := [cardH Rank.r2, cardH Rank.r3, cardH Rank.r4, cardH Rank.r5],
    discards := [], cut_card_position := 0 }

/-- A counter that has seen twelve cards netting a running count of 6. -/
def ctrSix : HiLoCounter := { running_count := 6, cards_seen := 12 }

/-- The small shoe after dealing its back card, the Five. -/
def deckSixAfter : Deck :=
  { num_decks := 6,
    cards := [cardH Rank.r2, cardH Rank.r3, cardH Rank.r4],
    discards := [cardH Rank.r5], cut_card_position := 0 }

/-- A game at the start of the player turn: one Ten-Six hand against the
dealer's Ten-Eight, cursor at hand 0. -/
def gameEx : BlackjackGame :=
  { rules := rulesDefault, deck := deckSix,
    player_hands := [{ cards := [cardH Rank.r10, cardS Rank.r6], bet := 100 }],
    dealer_hand := dealer18, current_hand_index := 0 }

/-- A game whose current hand is the pair of eights. -/
def gameSplitEx : BlackjackGame :=
  { rules := rulesDefault, deck := deckSix,
    player_hands := [{ cards := [cardH Rank.r8, cardS Rank.r8], bet := 100 }],
    dealer_hand := dealer18, current_hand_index := 0 }

/-- A game whose current hand is Ten-Ten, so the next hit (a Five) busts it. -/
def gameBustEx : BlackjackGame :=
  { rules := rulesDefault, deck := deckSix,
    player_hands := [{ cards := [cardH Rank.r10, cardS Rank.r10], bet := 100 }],
    dealer_hand := dealer18, current_hand_index := 0 }

/-- gameEx after doubling down: the Five is dealt, the bet doubles, and
the cursor moves to 1. -/
def gameExDoubled : BlackjackGame :=
  { rules := rulesDefault, deck := deckSixAfter,
    player_hands := [{ cards := [cardH Rank.r10, cardS Rank.r6, cardH Rank.r5],
                       bet := (100 : ℚ) * 2, is_doubled := true }],
    dealer_hand := dealer18, current_hand_index := 1 }

/-- gameEx after surrendering: the hand is flagged and the cursor moves to 1. -/
def gameExSurr : BlackjackGame :=
  { rules := rulesDefault, deck := deckSix,
    player_hands := [{ cards := [cardH Rank.r10, cardS Rank.r6],
                       bet := 100, is_surrendered := true }],
    dealer_hand := dealer18, current_hand_index := 1 }

/-- gameEx after a plain hit: the Five joins the hand, the cursor stays at 0. -/
def gameExHit : BlackjackGame :=
  { rules := rulesDefault, deck := deckSixAfter,
    player_hands := [{ cards := [cardH Rank.r10, cardS Rank.r6, cardH Rank.r5],
                       bet := 100 }],
    dealer_hand := dealer18, current_hand_index := 0 }

/-- The Ten-Ten hand after drawing the Five: a busted 25. -/
def handBust3 : Hand :=
  { cards := [cardH Rank.r10, cardS Rank.r10, cardH Rank.r5], bet := 100 }

/-- gameBustEx right after the engine hit, before the bust-handling stand. -/
def gameBustG1 : BlackjackGame :=
  { rules := rulesDefault, deck := deckSixAfter,
    player_hands := [handBust3],
    dealer_hand := dealer18, current_hand_index := 0 }

/-- gameBustEx after the training loop's hit step: the hit busted, so the
cursor was advanced to 1. -/
def gameBustStepped : BlackjackGame :=
  { rules := rulesDefault, deck := deckSixAfter,
    player_hands := [handBust3],
    dealer_hand := dealer18, current_hand_index := 1 }

/-- gameSplitEx after the split: each eight seeds a hand, the Five and
Four are dealt to them, the new hand sits right after index 0, and the
cursor stays at 0. -/
def gameSplitDone : BlackjackGame :=
  { rules := rulesDefault,
    deck := { num_decks := 6, cards := [cardH Rank.r2, cardH Rank.r3],
              discards := [cardH Rank.r5, cardH Rank.r4],
              cut_card_position := 0 },
    player_hands :=
      [{ cards := [cardH Rank.r8, cardH Rank.r5], bet := 100, is_split := true },
       { cards := [cardS Rank.r8, cardH Rank.r4], bet := 100, is_split := true }],
    dealer_hand := dealer18, current_hand_index := 0 }

/-- The raw total (every Ace as 11) is the minimum total plus 10 per Ace. -/
theorem rawTotal_eq_minTotal_add (cards : List Card) :
    rawTotal cards = minTotal cards + 10 * aceCount cards := by
  induction cards with
  | nil => rfl
  | cons c cs ih =>
    have hmap : rawTotal (c :: cs) = c.value + rawTotal cs := by
      simp [rawTotal]
    have hmin : minTotal (c :: cs) =
        (if c.rank = Rank.ace then 1 else c.value) + minTotal cs := by
      simp [minTotal]
    have hace : aceCount (c :: cs) =
        aceCount cs + (if c.rank = Rank.ace then 1 else 0) := by
      by_cases hc : c.rank = Rank.ace
      · simp [aceCount, List.filter_cons, hc]
      · simp [aceCount, List.filter_cons, hc]
    by_cases hc : c.rank = Rank.ace
    · have hv : c.value = 11 := by simp [Card.value, hc, Rank.value]
      rw [hmap, hmin, hace, if_pos hc, if_pos hc, ih, hv]; ring
    · rw [hmap, hmin, hace, if_neg hc, if_neg hc, ih]; ring

/-- Every card contributes at least 1 to the minimum total. -/
theorem minTotal_append_single (cards : List Card) (c : Card) :
    minTotal cards < minTotal (cards ++ [c]) := by
  have h1 : 1 ≤ (if c.rank = Rank.ace then 1 else c.value) := by
    by_cases hc : c.rank = Rank.ace
    · simp [hc]
    · rw [if_neg hc]
      cases hr : c.rank <;> simp [Card.value, Rank.value, hr]
  simp only [minTotal, List.map_append, List.sum_append, List.map_cons,
    List.map_nil, List.sum_cons, List.sum_nil]
  omega

/-- The Ace-adjustment loop computes the largest number of Aces that can
keep counting 11 without pushing the total over 21 (and reduces all of
them when no choice stays at or under 21). -/
theorem adjustAces_eq_findGreatest (a b : Nat) :
    adjustAces (b + 10 * a) a =
      b + 10 * Nat.findGreatest (fun k => b + 10 * k ≤ 21) a := by
  induction a with
  | zero => simp [adjustAces, Nat.findGreatest]
  | succ n ih =>
    rw [Nat.findGreatest_succ]
    by_cases hle : b + 10 * (n + 1) ≤ 21
    · rw [if_pos hle]
      simp only [adjustAces]
      rw [if_neg (by omega)]
    · rw [if_neg hle]
      simp only [adjustAces]
      rw [if_pos (by omega)]
      have harith : b + 10 * (n + 1) - 10 = b + 10 * n := by omega
      rw [harith, ih]

/-- handValue in closed form through Nat.findGreatest. -/
theorem handValue_eq (cards : List Card) :
    handValue cards = minTotal cards +
      10 * Nat.findGreatest (fun k => minTotal cards + 10 * k ≤ 21)
        (aceCount cards) := by
  rw [handValue, rawTotal_eq_minTotal_add, adjustAces_eq_findGreatest]

/-- Hand.value in closed form through Nat.findGreatest. -/
theorem hand_value_eq (h : Hand) :
    Hand.value h = minTotal h.cards +
      10 * Nat.findGreatest (fun k => minTotal h.cards + 10 * k ≤ 21)
        (aceCount h.cards) := by
  rw [Hand.value, handValue_eq]

/-- The best hand value never drops below the all-Aces-as-1 total. -/
theorem minTotal_le_handValue (cards : List Card) :
    minTotal cards ≤ handValue cards := by
  rw [handValue_eq]
  omega

/-- Claim C1: for every hand, Hand.value returns the maximum achievable
total at most 21 over the choices of counting each Ace as 1 or 11 — the
achievable totals being exactly minTotal + 10*k for k up to the number of
Aces — and, when every achievable total exceeds 21, the minimum
achievable (bust) total. -/
theorem C1_hand_value_optimal (h : Hand) :
    (∃ k ≤ aceCount h.cards, Hand.value h = minTotal h.cards + 10 * k) ∧
    (∀ k ≤ aceCount h.cards, minTotal h.cards + 10 * k ≤ 21 →
      minTotal h.cards + 10 * k ≤ Hand.value h) ∧
    ((∃ k ≤ aceCount h.cards, minTotal h.cards + 10 * k ≤ 21) →
      Hand.value h ≤ 21) ∧
    ((∀ k ≤ aceCount h.cards, 21 < minTotal h.cards + 10 * k) →
      Hand.value h = minTotal h.cards) := by
  have hval := hand_value_eq h
  refine ⟨⟨Nat.findGreatest (fun k => minTotal h.cards + 10 * k ≤ 21)
      (aceCount h.cards), Nat.findGreatest_le (aceCount h.cards), hval⟩,
    ?_, ?_, ?_⟩
  · intro k hk hk21
    have hkK := Nat.le_findGreatest (P := fun k => minTotal h.cards + 10 * k ≤ 21)
      hk hk21
    omega
  · rintro ⟨k, hk, hk21⟩
    have hspec : minTotal h.cards +
        10 * Nat.findGreatest (fun k => minTotal h.cards + 10 * k ≤ 21)
          (aceCount h.cards) ≤ 21 :=
      Nat.findGreatest_spec
        (P := fun k => minTotal h.cards + 10 * k ≤ 21) hk hk21
    omega
  · intro hall
    have hK0 : Nat.findGreatest (fun k => minTotal h.cards + 10 * k ≤ 21)
        (aceCount h.cards) = 0 := by
      apply Nat.findGreatest_eq_zero_iff.mpr
      intro n hn hna hPn
      have hcon := hall n hna
      have hPn' : minTotal h.cards + 10 * n ≤ 21 := hPn
      omega
    omega

/-- Claim C1 witness: on the hand Ace-Ace-Nine some achievable total is
at most 21, so the value is at most 21; indeed it is exactly 21. -/
theorem C1_hand_value_optimal_witness :
    Hand.value handAA9 ≤ 21 ∧ Hand.value handAA9 = 21 :=
  ⟨(C1_hand_value_optimal handAA9).2.2.1 ⟨1, by decide, by decide⟩, by decide⟩

/-- Claim C2 (code bug): on the hand Ace-Ace-Nine the best value is 21,
reached by still counting one of the Aces as 11 (21 = minimum total 11
plus 10), yet Hand.is_soft reports false: it compares the raw
both-Aces-as-11 sum 31 against 21 without performing the Ace adjustment
that Hand.value performs. -/
theorem C2_is_soft_bug :
    Hand.value handAA9 = 21 ∧ minTotal handAA9.cards = 11 ∧
      0 < aceCount handAA9.cards ∧ Hand.is_soft handAA9 = false := by
  decide

/-- Claim C3: resolve_hand settles each hand in exactly this precedence:
surrendered pays -bet/2; else a busted player pays -bet; else a player
blackjack pushes against a dealer blackjack and pays bet times the
blackjack payout otherwise; else a busted dealer pays +bet; else a dealer
blackjack pays -bet/2 to an insured hand and -bet otherwise; else the
higher total wins +bet, the lower loses -bet, and a tie pushes 0. -/
theorem C3_resolve_hand (rules : GameRules) (dealer h : Hand) :
    (h.is_surrendered = true → resolve_hand rules dealer h = -h.bet * (1 / 2)) ∧
    (h.is_surrendered = false → 21 < h.value →
      resolve_hand rules dealer h = -h.bet) ∧
    (h.is_surrendered = false → h.value ≤ 21 → h.is_blackjack = true →
      dealer.is_blackjack = true → resolve_hand rules dealer h = 0) ∧
    (h.is_surrendered = false → h.value ≤ 21 → h.is_blackjack = true →
      dealer.is_blackjack = false →
      resolve_hand rules dealer h = h.bet * rules.blackjack_payout) ∧
    (h.is_surrendered = false → h.value ≤ 21 → h.is_blackjack = false →
      21 < dealer.value → resolve_hand rules dealer h = h.bet) ∧
    (h.is_surrendered = false → h.value ≤ 21 → h.is_blackjack = false →
      dealer.value ≤ 21 → dealer.is_blackjack = true → h.is_insured = true →
      resolve_hand rules dealer h = -h.bet * (1 / 2)) ∧
    (h.is_surrendered = false → h.value ≤ 21 → h.is_blackjack = false →
      dealer.value ≤ 21 → dealer.is_blackjack = true → h.is_insured = false →
      resolve_hand rules dealer h = -h.bet) ∧
    (h.is_surrendered = false → h.value ≤ 21 → h.is_blackjack = false →
      dealer.value ≤ 21 → dealer.is_blackjack = false →
      dealer.value < h.value → resolve_hand rules dealer h = h.bet) ∧
    (h.is_surrendered = false → h.value ≤ 21 → h.is_blackjack = false →
      dealer.value ≤ 21 → dealer.is_blackjack = false →
      h.value < dealer.value → resolve_hand rules dealer h = -h.bet) ∧
    (h.is_surrendered = false → h.value ≤ 21 → h.is_blackjack = false →
      dealer.value ≤ 21 → dealer.is_blackjack = false →
      h.value = dealer.value → resolve_hand rules dealer h = 0) := by
  refine ⟨?_, ?_, ?_, ?_, ?_, ?_, ?_, ?_, ?_, ?_⟩ <;>
    intros <;>
    simp only [resolve_hand] <;>
    split_ifs <;>
    first
      | rfl
      | ring1
      | omega
      | simp_all

/-- Claim C3 witness: the specification's worked examples under default
rules — 19 beats a dealer 18 for +100, a 100-bet natural against a
non-natural dealer pays +150, natural against natural pushes, and a
surrendered 100-bet hand pays -50. -/
theorem C3_resolve_hand_witness :
    resolve_hand rulesDefault dealer18 player19 = 100 ∧
    resolve_hand rulesDefault dealer18 playerBJ = 150 ∧
    resolve_hand rulesDefault dealerBJ playerBJ = 0 ∧
    resolve_hand rulesDefault dealer18 playerSurr = -50 := by
  refine ⟨?_, ?_, ?_, ?_⟩
  · have hw := (C3_resolve_hand rulesDefault dealer18 player19).2.2.2.2.2.2.2.1
      (by decide) (by decide) (by decide) (by decide) (by decide) (by decide)
    rw [hw]
    rfl
  · have hw := (C3_resolve_hand rulesDefault dealer18 playerBJ).2.2.2.1
      (by decide) (by decide) (by decide) (by decide)
    rw [hw]
    norm_num [playerBJ, rulesDefault]
  · have hw := (C3_resolve_hand rulesDefault dealerBJ playerBJ).2.2.1
      (by decide) (by decide) (by decide) (by decide)
    rw [hw]
  · have hw := (C3_resolve_hand rulesDefault dealer18 playerSurr).1 (by decide)
    rw [hw]
    norm_num [playerSurr]

/-- Claim C4 (code bug): under the default rules get_action consults the
surrender table before the pair table, and a pair of eights is a hard 16,
so against upcards 9, 10 and Ace it returns Surrender — although its own
pair table entry for eights prescribes Split against every upcard — and
only returns Split against upcards 2 through 8 (there independently of
the double-after-split flag). -/
theorem C4_split_eights_bug :
    get_action bsDefault hand88 (cardH Rank.r9) true true true =
      Action.surrender ∧
    get_action bsDefault hand88 (cardH Rank.r10) true true true =
      Action.surrender ∧
    get_action bsDefault hand88 (cardH Rank.ace) true true true =
      Action.surrender ∧
    get_action bsNoDas hand88 (cardH Rank.r10) true true true =
      Action.surrender ∧
    (∀ r ∈ [Rank.r2, Rank.r3, Rank.r4, Rank.r5, Rank.r6, Rank.r7, Rank.r8],
      get_action bsDefault hand88 (cardH r) true true true = Action.split ∧
      get_action bsNoDas hand88 (cardH r) true true true = Action.split) ∧
    pairAction bsDefault.double_after_split Rank.r8 10 = Action.split := by
  decide

/-- The dealer loop returns a result whenever the fuel exceeds 18 minus
the hand's minimum total: every continuing state has value (hence
minimum total) at most 17, and each hit strictly increases the minimum
total. -/
theorem playDealerLoop_isSome (h17 : Bool) (stream : Nat → Card) :
    ∀ fuel i dealer, 18 - minTotal dealer < fuel →
      (playDealerLoop h17 stream fuel i dealer).isSome = true := by
  intro fuel
  induction fuel with
  | zero => intro i dealer hf; omega
  | succ f ih =>
    intro i dealer hf
    have hmin := minTotal_le_handValue dealer
    have hstep := minTotal_append_single dealer (stream i)
    simp only [playDealerLoop]
    by_cases h21 : 21 < handValue dealer
    · rw [if_pos h21]; rfl
    · rw [if_neg h21]
      by_cases h17v : 17 < handValue dealer
      · rw [if_pos h17v]; rfl
      · rw [if_neg h17v]
        by_cases heq : handValue dealer = 17
        · rw [if_pos heq]
          by_cases hsoft : (h17 && isSoftCards dealer) = true
          · rw [if_pos hsoft]
            apply ih
            omega
          · rw [if_neg hsoft]; rfl
        · rw [if_neg heq]
          apply ih
          omega

/-- Whenever the dealer loop returns a hand, that hand is bust, or worth
more than 17, or worth exactly 17 in a state where the hit rule permits
standing. -/
theorem playDealerLoop_exit (h17 : Bool) (stream : Nat → Card) :
    ∀ fuel i dealer res,
      playDealerLoop h17 stream fuel i dealer = some res →
      21 < handValue res ∨ (17 < handValue res ∧ handValue res ≤ 21) ∨
        (handValue res = 17 ∧ (h17 = false ∨ isSoftCards res = false)) := by
  intro fuel
  induction fuel with
  | zero => intro i dealer res hres; simp [playDealerLoop] at hres
  | succ f ih =>
    intro i dealer res hres
    simp only [playDealerLoop] at hres
    by_cases h21 : 21 < handValue dealer
    · rw [if_pos h21] at hres
      injection hres with hd
      subst hd
      exact Or.inl h21
    · rw [if_neg h21] at hres
      by_cases h17v : 17 < handValue dealer
      · rw [if_pos h17v] at hres
        injection hres with hd
        subst hd
        exact Or.inr (Or.inl ⟨h17v, by omega⟩)
      · rw [if_neg h17v] at hres
        by_cases heq : handValue dealer = 17
        · rw [if_pos heq] at hres
          by_cases hsoft : (h17 && isSoftCards dealer) = true
          · rw [if_pos hsoft] at hres
            exact ih (i + 1) (dealer ++ [stream i]) res hres
          · rw [if_neg hsoft] at hres
            injection hres with hd
            subst hd
            refine Or.inr (Or.inr ⟨heq, ?_⟩)
            cases hh : h17 <;> cases hs : isSoftCards dealer <;> simp_all
        · rw [if_neg heq] at hres
          exact ih (i + 1) (dealer ++ [stream i]) res hres

/-- Claim C5 (amended): the dealer loop always terminates — each hit
strictly increases the hand's minimum (all-Aces-as-1) total while every
continuing state keeps it at most 17, so any fuel above 18 minus the
minimum total suffices — and on exit the dealer hand is bust, or has
value above 17, or has value exactly 17 where the hit rule permits
standing: under S17 every 17 stands, and under H17 an exit at 17 is
never soft.  (The claim's stronger per-hit justification — each hit
busts or strictly increases the value — is refuted separately.) -/
theorem C5_dealer_loop (h17 : Bool) (stream : Nat → Card) (fuel i : Nat)
    (dealer : List Card) :
    (18 - minTotal dealer < fuel →
      (playDealerLoop h17 stream fuel i dealer).isSome = true) ∧
    (∀ res, playDealerLoop h17 stream fuel i dealer = some res →
      21 < handValue res ∨ (17 < handValue res ∧ handValue res ≤ 21) ∨
        (handValue res = 17 ∧ (h17 = false ∨ isSoftCards res = false))) ∧
    (∀ cards c, minTotal cards < minTotal (cards ++ [c])) :=
  ⟨fun hf => playDealerLoop_isSome h17 stream fuel i dealer hf,
   fun res hres => playDealerLoop_exit h17 stream fuel i dealer res hres,
   fun cards c => minTotal_append_single cards c⟩

/-- Claim C5 witness: with fuel 19 the loop from an empty dealer hand
(minimum total 0) terminates, and a hard eighteen is an exit state
satisfying the exit disjunction. -/
theorem C5_dealer_loop_witness :
    (playDealerLoop false streamSix 19 0 []).isSome = true ∧
    (21 < handValue [cardH Rank.r10, cardH Rank.r8] ∨
      (17 < handValue [cardH Rank.r10, cardH Rank.r8] ∧
        handValue [cardH Rank.r10, cardH Rank.r8] ≤ 21) ∨
      (handValue [cardH Rank.r10, cardH Rank.r8] = 17 ∧
        (false = false ∨ isSoftCards [cardH Rank.r10, cardH Rank.r8] = false))) :=
  ⟨(C5_dealer_loop false streamSix 19 0 []).1 (by decide),
   (C5_dealer_loop false streamSix 5 0 [cardH Rank.r10, cardH Rank.r8]).2.1
     [cardH Rank.r10, cardH Rank.r8] (by decide)⟩

/-- Claim C5 counterexample: under H17 the dealer hits the soft 17
Ace-Six; drawing a Six neither busts the hand nor increases its value —
the value drops from 17 to 13 — yet the loop, which does take this hit,
still terminates, reaching Ace-Six-Six-Six worth 19. -/
theorem C5_counterexample :
    handValue dealerA6 = 17 ∧
    handValue (dealerA6 ++ [cardH Rank.r6]) = 13 ∧
    ¬ 21 < handValue (dealerA6 ++ [cardH Rank.r6]) ∧
    ¬ handValue dealerA6 < handValue (dealerA6 ++ [cardH Rank.r6]) ∧
    playDealerLoop true streamSix 20 0 dealerA6 =
      some [cardH Rank.ace, cardH Rank.r6, cardH Rank.r6, cardH Rank.r6] := by
  decide

/-- A fresh shoe holds exactly 52 cards per configured deck. -/
theorem freshCards_length (n : Nat) : (freshCards n).length = 52 * n := by
  rw [freshCards]
  simp only [List.length_flatMap, Function.comp_def]
  norm_num [List.map_const', List.sum_replicate, mul_comm]

/-- After any length-preserving shuffle, reset places the cut card at 13
per deck: one quarter of the shoe, rounded down. -/
theorem reset_cut_card (shuffle : List Card → List Card)
    (hlen : ∀ l, (shuffle l).length = l.length) (d : Deck) :
    (d.reset shuffle).cut_card_position = 13 * d.num_decks := by
  simp only [Deck.reset, hlen, freshCards_length]
  omega

/-- Claim C6 (amended): reset always places the cut card at one quarter
of the shoe — 13 per deck, ignoring the configured penetration; this
equals the specification formula floor(52*N*(1-p)) only at the default
penetration 3/4 — and needs_shuffle holds exactly when the cards
remaining are at most the cut-card index. -/
theorem C6_cut_card (shuffle : List Card → List Card)
    (hlen : ∀ l, (shuffle l).length = l.length) (d : Deck) :
    (d.reset shuffle).cut_card_position = 13 * d.num_decks ∧
    ((d.reset shuffle).cut_card_position : Int) =
      cutIndexSpec (3 / 4) d.num_decks ∧
    (∀ d' : Deck, d'.needs_shuffle = true ↔
      d'.cards_remaining ≤ d'.cut_card_position) := by
  refine ⟨reset_cut_card shuffle hlen d, ?_, ?_⟩
  · rw [reset_cut_card shuffle hlen d, cutIndexSpec]
    have hq : (52 * (d.num_decks : ℚ)) * (1 - 3 / 4) =
        ((13 * (d.num_decks : Int) : Int) : ℚ) := by
      push_cast
      ring
    rw [hq, Int.floor_intCast]
    push_cast
    ring
  · intro d'
    simp [Deck.needs_shuffle, Deck.cards_remaining]

/-- Claim C6 witness: on a one-deck shoe the reset cut index is 13, which
the specification formula reproduces at the default penetration. -/
theorem C6_cut_card_witness :
    (deckOne.reset id).cut_card_position = 13 * deckOne.num_decks ∧
    ((deckOne.reset id).cut_card_position : Int) =
      cutIndexSpec (3 / 4) deckOne.num_decks :=
  ⟨(C6_cut_card id (fun _ => rfl) deckOne).1,
   (C6_cut_card id (fun _ => rfl) deckOne).2.1⟩

/-- Claim C6 counterexample: the shoe's reset never reads the configured
penetration — it always cuts at one quarter — so for penetration 1/2 on
a single deck the code's cut index 13 differs from the claimed
floor(52*1*(1-1/2)) = 26. -/
theorem C6_counterexample :
    (deckOne.reset id).cut_card_position = 13 ∧
    cutIndexSpec (1 / 2) 1 = 26 ∧
    ¬ ((deckOne.reset id).cut_card_position : Int) = cutIndexSpec (1 / 2) 1 := by
  refine ⟨by decide, ?_, ?_⟩
  · rw [cutIndexSpec]
    norm_num
  · intro hcon
    rw [cutIndexSpec] at hcon
    norm_num at hcon
    rw [show (deckOne.reset id).cut_card_position = 13 from by decide] at hcon
    norm_num at hcon

/-- Claim C8: between resets the live cards plus the discards always
total 52 per configured deck: reset establishes the invariant for any
permutation shuffle, each successful deal moves exactly the popped back
card of the live sequence onto the end of the discards, preserving the
sum, and dealing from an empty shoe fails. -/
theorem C8_deck_invariant (shuffle : List Card → List Card)
    (hperm : ∀ l, List.Perm (shuffle l) l) :
    (∀ d : Deck, (d.reset shuffle).cards_remaining +
        (d.reset shuffle).discards.length = 52 * d.num_decks) ∧
    (∀ (d : Deck) (c : Card) (d' : Deck), d.deal_card = some (c, d') →
      d.cards = d'.cards ++ [c] ∧ d'.discards = d.discards ++ [c] ∧
      d'.cards_remaining + d'.discards.length =
        d.cards_remaining + d.discards.length) ∧
    (∀ d : Deck, d.cards = [] → d.deal_card = none) := by
  refine ⟨?_, ?_, ?_⟩
  · intro d
    have hp := (hperm (freshCards d.num_decks)).length_eq
    simp only [Deck.reset, Deck.cards_remaining, List.length_nil, Nat.add_zero]
    rw [hp, freshCards_length]
  · intro d c d' hdeal
    simp only [Deck.deal_card] at hdeal
    split at hdeal
    · exact absurd hdeal (by simp)
    · rename_i a heq
      injection hdeal with hpair
      injection hpair with hac hd'
      subst hac
      subst hd'
      have hsplit : d.cards.dropLast ++ [a] = d.cards :=
        List.dropLast_append_getLast? a (Option.mem_def.mpr heq)
      have hne : d.cards ≠ [] := by
        intro hnil
        rw [hnil] at heq
        exact absurd heq (by simp)
      refine ⟨hsplit.symm, rfl, ?_⟩
      simp only [Deck.cards_remaining, List.length_dropLast, List.length_append,
        List.length_cons, List.length_nil]
      have hpos : 0 < d.cards.length := List.length_pos.mpr hne
      omega
  · intro d hd
    simp [Deck.deal_card, hd]

/-- Claim C8 witness: the invariant holds after resetting the one-deck
shoe with the identity permutation, dealing from the empty shoe fails,
and dealing from the four-card shoe pops its back Five onto the
discards, preserving the total. -/
theorem C8_deck_invariant_witness :
    ((deckOne.reset id).cards_remaining + (deckOne.reset id).discards.length
      = 52 * deckOne.num_decks) ∧
    deckOne.deal_card = none ∧
    (deckSix.cards = deckSixAfter.cards ++ [cardH Rank.r5] ∧
     deckSixAfter.discards = deckSix.discards ++ [cardH Rank.r5] ∧
     deckSixAfter.cards_remaining + deckSixAfter.discards.length =
       deckSix.cards_remaining + deckSix.discards.length) :=
  ⟨(C8_deck_invariant id (fun l => List.Perm.refl l)).1 deckOne,
   (C8_deck_invariant id (fun l => List.Perm.refl l)).2.2 deckOne rfl,
   (C8_deck_invariant id (fun l => List.Perm.refl l)).2.1 deckSix
     (cardH Rank.r5) deckSixAfter (by decide)⟩

/-- Claim C9: get_true_count is a total function of the running count and
the decks remaining; it returns 0 whenever the decks remaining are not
positive — no division fault — and the running count divided by the
decks remaining whenever they are positive. -/
theorem C9_true_count (ctr : HiLoCounter) (d : ℚ) :
    (d ≤ 0 → ctr.get_true_count d = 0) ∧
    (0 < d → ctr.get_true_count d = (ctr.running_count : ℚ) / d) := by
  constructor
  · intro hd
    rw [HiLoCounter.get_true_count, if_pos hd]
  · intro hd
    rw [HiLoCounter.get_true_count, if_neg (not_le.mpr hd)]

/-- Claim C9 witness: at zero decks remaining the true count is 0; with
running count 6 and two decks remaining it is 3. -/
theorem C9_true_count_witness :
    ctrSix.get_true_count 0 = 0 ∧ ctrSix.get_true_count 2 = 3 :=
  ⟨(C9_true_count ctrSix 0).1 (by norm_num),
   by rw [(C9_true_count ctrSix 2).2 (by norm_num)]; norm_num [ctrSix]⟩

/-- Claim C10: a split-derived two-card twenty-one counts as blackjack —
is_blackjack does not consult the split flag — and resolve_hand settles
it exactly like a natural: a push against a dealer blackjack, bet times
the blackjack payout otherwise, never as an ordinary 21. -/
theorem C10_split_blackjack (rules : GameRules) (dealer h : Hand)
    (hsplit : h.is_split = true) (hn : h.cards.length = 2)
    (hv : h.value = 21) (hs : h.is_surrendered = false) :
    h.is_blackjack = true ∧
    (dealer.is_blackjack = true → resolve_hand rules dealer h = 0) ∧
    (dealer.is_blackjack = false →
      resolve_hand rules dealer h = h.bet * rules.blackjack_payout) := by
  have hbj : h.is_blackjack = true := by
    simp [Hand.is_blackjack, hn, hv]
  refine ⟨hbj, ?_, ?_⟩ <;> intro hd <;>
    simp [resolve_hand, hs, hv, hbj, hd]

/-- Claim C10 witness: the split Ace-King hand with a 100 bet is
blackjack and collects 150 against the dealer's eighteen. -/
theorem C10_split_blackjack_witness :
    splitAceKing.is_blackjack = true ∧
    resolve_hand rulesDefault dealer18 splitAceKing =
      splitAceKing.bet * rulesDefault.blackjack_payout :=
  ⟨(C10_split_blackjack rulesDefault dealer18 splitAceKing (by decide)
      (by decide) (by decide) (by decide)).1,
   (C10_split_blackjack rulesDefault dealer18 splitAceKing (by decide)
      (by decide) (by decide) (by decide)).2.2 (by decide)⟩

/-- Setting position i of a list and inserting right after it splits the
list around position i. -/
theorem set_insertIdx_decomp {α : Type} (l : List α) (i : Nat) (x y : α)
    (hi : i < l.length) :
    ∃ pre post, l = pre ++ l[i] :: post ∧ pre.length = i ∧
      (l.set i x).insertIdx (i + 1) y = pre ++ x :: y :: post := by
  induction l generalizing i with
  | nil => simp at hi
  | cons a t ih =>
    cases i with
    | zero => exact ⟨[], t, rfl, rfl, rfl⟩
    | succ j =>
      have hj : j < t.length := by simpa using hi
      obtain ⟨pre, post, h1, h2, h3⟩ := ih j hj
      refine ⟨a :: pre, post, ?_, ?_, ?_⟩
      · simpa using h1
      · simpa using h2
      · simpa using h3

/-- A successful get_current_hand means the cursor is in range and
returns the hand stored there. -/
theorem get_current_hand_some (g : BlackjackGame) (hand : Hand)
    (heq : g.get_current_hand = some hand) :
    ∃ hlt : g.current_hand_index < g.player_hands.length,
      g.player_hands[g.current_hand_index] = hand := by
  rw [BlackjackGame.get_current_hand] at heq
  have hlt : g.current_hand_index < g.player_hands.length := by
    by_contra hge
    rw [List.getElem?_eq_none (le_of_not_lt hge)] at heq
    exact absurd heq (by simp)
  refine ⟨hlt, ?_⟩
  rw [List.getElem?_eq_getElem hlt] at heq
  injection heq with h

/-- The engine's hit never moves the cursor. -/
theorem hit_index (g : BlackjackGame) (c : Card) (g' : BlackjackGame)
    (hh : g.hit = some (c, g')) :
    g'.current_hand_index = g.current_hand_index := by
  simp only [BlackjackGame.hit] at hh
  split at hh
  · simp at hh
  · split at hh
    · simp at hh
    · injection hh with hpair
      injection hpair with h1 h2
      subst h2
      rfl

/-- Claim C7: during the player turn the cursor advances by exactly one
on Stand, on Double, on Surrender, and — through the training loop's
bust handling — on a Hit that busts the current hand (the engine's hit
itself never moves it), while Split leaves the cursor unchanged and
inserts the new hand immediately after the current index, the original
hand staying in place. -/
theorem C7_cursor_moves (g : BlackjackGame) :
    ((g.stand).current_hand_index = g.current_hand_index + 1) ∧
    (∀ c g', g.double_down = some (c, g') →
      g'.current_hand_index = g.current_hand_index + 1) ∧
    (∀ g', g.surrender = some g' →
      g'.current_hand_index = g.current_hand_index + 1) ∧
    (∀ c g', g.hit = some (c, g') →
      g'.current_hand_index = g.current_hand_index) ∧
    (∀ g' c g1 h1, g.hitStep = some g' → g.hit = some (c, g1) →
      g1.get_current_hand = some h1 →
      g'.current_hand_index =
        (if h1.is_bust then g.current_hand_index + 1
         else g.current_hand_index)) ∧
    (∀ g', g.split = some g' →
      g'.current_hand_index = g.current_hand_index ∧
      ∃ pre post mid h1 nh,
        g.player_hands = pre ++ mid :: post ∧
        pre.length = g.current_hand_index ∧
        g'.player_hands = pre ++ h1 :: nh :: post ∧
        h1.is_split = true ∧ nh.is_split = true) := by
  refine ⟨rfl, ?_, ?_, ?_, ?_, ?_⟩
  · intro c g' hdd
    simp only [BlackjackGame.double_down] at hdd
    split at hdd
    · simp at hdd
    · split at hdd
      · split at hdd
        · simp at hdd
        · injection hdd with hpair
          injection hpair with h1 h2
          subst h2
          rfl
      · simp at hdd
  · intro g' hsr
    simp only [BlackjackGame.surrender] at hsr
    split at hsr
    · simp at hsr
    · split at hsr
      · injection hsr with h2
        subst h2
        rfl
      · simp at hsr
  · intro c g' hh
    exact hit_index g c g' hh
  · intro g' c g1 h1 hstep hh hch
    simp only [BlackjackGame.hitStep] at hstep
    split at hstep
    · simp at hstep
    · rename_i c0 g10 hh0
      rw [hh] at hh0
      injection hh0 with hp
      injection hp with hc hg
      subst hc
      subst hg
      split at hstep
      · simp at hstep
      · rename_i hand0 hch0
        rw [hch] at hch0
        injection hch0 with hhand
        subst hhand
        split at hstep
        · rename_i hbust
          injection hstep with h2
          subst h2
          rw [if_pos hbust, BlackjackGame.stand]
          rw [hit_index g c g1 hh]
        · rename_i hbust
          injection hstep with h2
          subst h2
          rw [if_neg hbust]
          exact hit_index g c g1 hh
  · intro g' hsp
    simp only [BlackjackGame.split] at hsp
    split at hsp
    · simp at hsp
    · rename_i hand heq
      split at hsp
      · rename_i hcond
        split at hsp
        · rename_i c1 c2 hcards
          split at hsp
          · simp at hsp
          · rename_i p1 d1 deck1 hdeal1
            split at hsp
            · simp at hsp
            · rename_i p2 d2 deck2 hdeal2
              injection hsp with h2
              subst h2
              obtain ⟨hlt, hget⟩ := get_current_hand_some g hand heq
              refine ⟨rfl, ?_⟩
              obtain ⟨pre, post, hdec1, hdec2, hdec3⟩ :=
                set_insertIdx_decomp g.player_hands g.current_hand_index
                  (Hand.add_card { hand with cards := [c1], is_split := true } d1)
                  (Hand.add_card
                    { cards := [c2], bet := hand.bet, is_split := true } d2)
                  hlt
              refine ⟨pre, post, g.player_hands[g.current_hand_index],
                _, _, hdec1, hdec2, hdec3, rfl, rfl⟩
        · simp at hsp
      · simp at hsp

/-- Claim C7 witness: on the concrete games, standing, doubling and
surrendering advance the cursor from 0 to 1, a plain hit and a split
leave it at 0, and the training loop's hit step advances it past the
busted Ten-Ten-Five hand. -/
theorem C7_cursor_moves_witness :
    (gameEx.stand).current_hand_index = gameEx.current_hand_index + 1 ∧
    gameExDoubled.current_hand_index = gameEx.current_hand_index + 1 ∧
    gameExSurr.current_hand_index = gameEx.current_hand_index + 1 ∧
    gameExHit.current_hand_index = gameEx.current_hand_index ∧
    gameBustStepped.current_hand_index =
      (if handBust3.is_bust then gameBustEx.current_hand_index + 1
       else gameBustEx.current_hand_index) ∧
    gameSplitDone.current_hand_index = gameSplitEx.current_hand_index :=
  ⟨(C7_cursor_moves gameEx).1,
   (C7_cursor_moves gameEx).2.1 (cardH Rank.r5) gameExDoubled rfl,
   (C7_cursor_moves gameEx).2.2.1 gameExSurr rfl,
   (C7_cursor_moves gameEx).2.2.2.1 (cardH Rank.r5) gameExHit rfl,
   (C7_cursor_moves gameBustEx).2.2.2.2.1 gameBustStepped (cardH Rank.r5)
     gameBustG1 handBust3 rfl rfl rfl,
   ((C7_cursor_moves gameSplitEx).2.2.2.2.2 gameSplitDone rfl).1⟩

end Blackjack
